import Mathlib

/-
Verification development for the WikiCommons category scratcher
(src/wikicommons/wikicommons-scratcher.py).

The Python source is shallowly embedded: pure string manipulation is
translated to executable Lean functions on List Char / String, the
process-global mutable state (CALLBACK_EXPO, LICENSE_CACHE, the report
file) is made explicit state, and the recursive traversal
recur_record_all_licenses is embedded as a small-step worklist machine
whose single step processes exactly one invocation of the Python
function.  Fallible Python code (functions that return None from an
exception handler, or raise) is modelled with Option / Except.
-/

namespace WikiCommons

/-! ## String helpers -/

/-- Models the Python expression alias.split("/")[-1]: the suffix of the
string after the last slash (the whole string when it has no slash). -/
def lastSeg (s : String) : String :=
  ⟨(s.data.reverse.takeWhile (fun c => c != '/')).reverse⟩

/-- Models str.replace("Category:", "") from get_subcategories: every
occurrence of the nine-character pattern is removed, scanning left to
right (Python replaces all occurrences, not only a leading one). -/
def stripCategory : List Char → List Char
  | 'C' :: 'a' :: 't' :: 'e' :: 'g' :: 'o' :: 'r' :: 'y' :: ':' :: rest => stripCategory rest
  | c :: rest => c :: stripCategory rest
  | [] => []

/-- Models str.replace("&", "%26") from get_subcategories: every
ampersand is replaced by the three characters of the escape. -/
def escapeAmp : List Char → List Char
  | [] => []
  | c :: rest => if c = '&' then '%' :: '2' :: '6' :: escapeAmp rest else c :: escapeAmp rest

/-- Decides whether the pattern of stripCategory occurs anywhere in the
list (used to state when stripping is the identity). -/
def containsCat : List Char → Bool
  | 'C' :: 'a' :: 't' :: 'e' :: 'g' :: 'o' :: 'r' :: 'y' :: ':' :: _ => true
  | _ :: rest => containsCat rest
  | [] => false

/-- The nine characters of the category namespace marker. -/
def catColon : List Char := ['C', 'a', 't', 'e', 'g', 'o', 'r', 'y', ':']

/-- Models the per-title processing in get_subcategories, line 117 of the
source: members["title"].replace("Category:", "").replace("&", "%26"). -/
def processTitle (t : String) : String :=
  ⟨escapeAmp (stripCategory t.data)⟩

/-- Spec-side description of ampersand escaping, stated independently of
escapeAmp so that the two can be compared: each character maps to itself
unless it is an ampersand, which maps to the escape. -/
def specAmpEscape (c : Char) : List Char :=
  if c = '&' then ['%', '2', '6'] else [c]

/-! ## Backoff Controller (expo_backoff, expo_backoff_reset) -/

/-- Constant CALLBACK_INDEX = 2 from the source. -/
def CALLBACK_INDEX : ℚ := 2

/-- Constant MAX_WAIT = 64 from the source. -/
def MAX_WAIT : ℚ := 64

/-- Models random.randint(1, 1000) / 1000: the jitter term computed from
the draw r of the random source, which ranges over 1 to 1000 inclusive. -/
def jitter (r : Nat) : ℚ := (r : ℚ) / 1000

/-- Models expo_backoff().  The Python function reads the random source
(modelled by the draw r), reads and possibly increments the global
CALLBACK_EXPO (modelled by the expo argument and the second component of
the result), and sleeps min(backoff, MAX_WAIT) seconds (the first
component of the result).  The exponent is incremented exactly when the
unclamped backoff is below MAX_WAIT. -/
def expo_backoff (r : Nat) (expo : Nat) : ℚ × Nat :=
  let backoff : ℚ := jitter r + CALLBACK_INDEX ^ expo
  (min backoff MAX_WAIT, if backoff < MAX_WAIT then expo + 1 else expo)

/-- Models expo_backoff_reset(): sets CALLBACK_EXPO back to 0. -/
def expo_backoff_reset (_expo : Nat) : Nat := 0

/-- The minimum possible delay of a wait at a given exponent: the
smallest jitter draw is 1, so the smallest delay is jitter 1 + 2 ^ expo. -/
def minDelay (expo : Nat) : ℚ := jitter 1 + CALLBACK_INDEX ^ expo

/-! ## Remote Query Client (get_subcategories, get_license_contents) -/

/-- Aggregate content counters of one page entry, modelling the
"categoryinfo" object of the JSON response with its integer "files" and
"pages" fields. -/
structure CategoryInfo where
  files : Nat
  pages : Nat
deriving DecidableEq

/-- Response to the subcategory query of get_subcat_request_url.  The
field queryMembers is some when the parsed JSON has the expected
search_data["query"]["categorymembers"] structure, carrying the "title"
string of each member; it is none when the structure is absent, which in
the Python code makes the success path raise and land in the exception
handler. -/
structure SubcatResponse where
  queryMembers : Option (List String)
deriving DecidableEq

/-- Response to the content query of get_content_request_url.  The field
queryPages is some when the parsed JSON has the expected
search_data["query"]["pages"] structure, carrying for each page id its
"categoryinfo" counters; none models a response lacking that structure. -/
structure ContentResponse where
  queryPages : Option (List (String × CategoryInfo))
deriving DecidableEq

/-- Return dictionary of get_license_contents, with the field names of
the Python dict literal at lines 159-162 of the source. -/
structure SearchDataDict where
  total_file_cnt : Nat
  total_page_cnt : Nat
deriving DecidableEq

/-- Models get_subcategories(license) with the default eb=False, as the
traversal invokes it.  On the expected structure it returns the
processed titles; when the query structure is absent the success path
raises, the handler prints the diagnostic ("This query will not be
processed due to empty subcats.") and the function falls off the end,
returning None - modelled as none. -/
def get_subcategories (api : String → SubcatResponse) (license : String) :
    Option (List String) :=
  match (api license).queryMembers with
  | some members => some (members.map processTitle)
  | none => none

/-- Models get_license_contents(license) with the default eb=False, as
record_license_data invokes it.  On the expected structure it sums the
"files" and "pages" counters over all page ids of the response (lines
153-158 of the source) and returns the dict; when the query structure is
absent the handler prints the diagnostic ("This query will not be
processed due to empty result.") and the function returns None -
modelled as none. -/
def get_license_contents (api : String → ContentResponse) (license : String) :
    Option SearchDataDict :=
  match (api license).queryPages with
  | some pages =>
      let counts := pages.foldl
        (fun acc p => (acc.1 + p.2.files, acc.2 + p.2.pages)) (0, 0)
      some ⟨counts.1, counts.2⟩
  | none => none

/-- Models get_subcategories(license, eb=True).  The api argument gives
the response of the n-th network attempt; r and expo model the random
draw and the global CALLBACK_EXPO consumed by the backoff.  On failure
the handler calls expo_backoff(), then calls get_subcategories(license)
again (eb defaults to False on the retry) and discards its value, so the
function returns None; the result pairs the returned value with the new
exponent. -/
def get_subcategories_eb (api : Nat → SubcatResponse) (r expo : Nat) (license : String) :
    Option (List String) × Nat :=
  match (api 0).queryMembers with
  | some members => (some (members.map processTitle), expo)
  | none =>
      let b := expo_backoff r expo
      let _discarded := get_subcategories (fun _ => api 1) license
      (none, b.2)

/-- Models get_license_contents(license, eb=True), mirroring
get_subcategories_eb: backoff, retry with the value discarded, None
returned. -/
def get_license_contents_eb (api : Nat → ContentResponse) (r expo : Nat) (license : String) :
    Option SearchDataDict × Nat :=
  match (api 0).queryPages with
  | some pages =>
      let counts := pages.foldl
        (fun acc p => (acc.1 + p.2.files, acc.2 + p.2.pages)) (0, 0)
      (some ⟨counts.1, counts.2⟩, expo)
  | none =>
      let b := expo_backoff r expo
      let _discarded := get_license_contents (fun _ => api 1) license
      (none, b.2)

/-! ## Report Writer (set_up_data_file, record_license_data) -/

/-- Header line written once by set_up_data_file. -/
def header : String := "LICENSE TYPE,File Count, Page Count"

/-- Models record_license_data(license_type, license_alias): fetches the
content dict for license_type and produces the report row carrying the
alias and the two counters.  When get_license_contents returned None the
Python code raises TypeError while subscripting the result
(search_result["total_file_cnt"]); that is modelled by none. -/
def record_license_data (capi : String → ContentResponse)
    (license_type license_alias : String) : Option (String × Nat × Nat) :=
  match get_license_contents capi license_type with
  | some search_result => some (license_alias, search_result.total_file_cnt, search_result.total_page_cnt)
  | none => none

/-- The comma-joined line written for one report row, following the
f-string of record_license_data. -/
def rowString (r : String × Nat × Nat) : String :=
  r.1 ++ "," ++ toString r.2.1 ++ "," ++ toString r.2.2

/-! ## Traversal Engine (recur_record_all_licenses) -/

/-- Explicit state of a run of recur_record_all_licenses: the worklist
of pending aliases (the call stack of the Python recursion, leftmost
next), the LICENSE_CACHE keys, the rows appended to the report so far,
and counters of the network calls issued by the two query operations. -/
structure CrawlState where
  pending : List String
  cache : List String
  report : List (String × Nat × Nat)
  subcatCalls : Nat
  contentCalls : Nat
deriving DecidableEq

/-- Performs one invocation of recur_record_all_licenses(alias) on the
first pending alias.  Following lines 219-226 of the source: compute
cur_cat as the last slash-separated segment of the alias; call
get_subcategories(cur_cat) unconditionally (one network call, even for a
cached category); if cur_cat is cached, return.  Otherwise call
record_license_data (which fetches the content metrics - a TypeError is
raised there when that fetch returned None), append the row, insert
cur_cat into LICENSE_CACHE, and then iterate over the subcategories,
which raises TypeError when get_subcategories returned None; descending
into a child prepends its alias to the worklist, preserving the
depth-first order of the recursion. -/
def recur_step (gapi : String → SubcatResponse) (capi : String → ContentResponse)
    (s : CrawlState) : Except String CrawlState :=
  match s.pending with
  | [] => .ok s
  | al :: rest =>
    let cur_cat := lastSeg al
    let subcategories := get_subcategories gapi cur_cat
    let s1 : CrawlState := { s with subcatCalls := s.subcatCalls + 1 }
    if cur_cat ∈ s1.cache then
      .ok { s1 with pending := rest }
    else
      match record_license_data capi cur_cat al with
      | none => .error "TypeError: NoneType object is not subscriptable"
      | some row =>
        let s2 : CrawlState := { s1 with
          contentCalls := s1.contentCalls + 1
          report := s1.report ++ [row]
          cache := cur_cat :: s1.cache }
        match subcategories with
        | none => .error "TypeError: NoneType object is not iterable"
        | some names =>
          .ok { s2 with pending := (names.map (fun c => al ++ "/" ++ c)) ++ rest }

/-- Iterates recur_step until the worklist is empty, the supplied fuel
runs out, or an exception aborts the run (the error case models an
exception propagating to the top level, where the main guard exits with
code 1). -/
def recur_run (gapi : String → SubcatResponse) (capi : String → ContentResponse) :
    Nat → CrawlState → Except String CrawlState
  | 0, s => .ok s
  | n + 1, s =>
    match s.pending with
    | [] => .ok s
    | _ :: _ =>
      match recur_step gapi capi s with
      | .error e => .error e
      | .ok s' => recur_run gapi capi n s'

/-- Initial state of a run: one root alias pending, empty LICENSE_CACHE,
empty report (the source default root alias is
"Free_Creative_Commons_licenses"). -/
def initState (root : String) : CrawlState := ⟨[root], [], [], 0, 0⟩

/-- Category names mentioned by the report rows: the last segment of the
alias of each row, which is the cur_cat that was recorded. -/
def reportCats (s : CrawlState) : List String :=
  s.report.map (fun r => lastSeg r.1)

/-- The report file contents: the header then one line per row. -/
def reportFile (s : CrawlState) : List String :=
  header :: s.report.map rowString

/-- Number of categories of the finite universe U not yet cached. -/
def unvisited (U : Finset String) (s : CrawlState) : Nat :=
  (U.filter (fun c => c ∉ s.cache)).card

/-- Termination measure of the traversal: pending worklist length plus a
weighted count of uncached categories, where B bounds the fan-out. -/
def meas (U : Finset String) (B : Nat) (s : CrawlState) : Nat :=
  s.pending.length + (B + 1) * unvisited U s

/-! ## Concrete fixtures used by the theorems below -/

/-- Subcategory API of a two-node cyclic graph: A lists B and B lists A. -/
def cycleG : String → SubcatResponse := fun c =>
  if c = "A" then ⟨some ["Category:B"]⟩
  else if c = "B" then ⟨some ["Category:A"]⟩
  else ⟨some []⟩

/-- Content API giving every category one page entry with counters 1, 1. -/
def cycleC : String → ContentResponse := fun _ => ⟨some [("10", ⟨1, 1⟩)]⟩

/-- Subcategory API of the end-to-end scenario: A has the single child B,
B has no children. -/
def c5G : String → SubcatResponse := fun c =>
  if c = "A" then ⟨some ["Category:B"]⟩ else ⟨some []⟩

/-- Content API of the end-to-end scenario: A has files=2, pages=4 and B
has files=0, pages=1. -/
def c5C : String → ContentResponse := fun c =>
  if c = "A" then ⟨some [("1", ⟨2, 4⟩)]⟩
  else if c = "B" then ⟨some [("2", ⟨0, 1⟩)]⟩
  else ⟨none⟩

/-- Subcategory API where the root R has the two children A and C. -/
def c2G : String → SubcatResponse := fun c =>
  if c = "R" then ⟨some ["Category:A", "Category:C"]⟩ else ⟨some []⟩

/-- Content API whose response for A lacks the query structure while all
other categories are well-formed. -/
def c2C : String → ContentResponse := fun c =>
  if c = "A" then ⟨none⟩ else ⟨some [("1", ⟨1, 1⟩)]⟩

/-- Subcategory API answering every category with an empty member list. -/
def oneG : String → SubcatResponse := fun _ => ⟨some []⟩

/-- Content API answering every category with an empty page mapping. -/
def oneC : String → ContentResponse := fun _ => ⟨some []⟩

/-- Subcategory API whose responses all lack the query structure. -/
def noneG : String → SubcatResponse := fun _ => ⟨none⟩

/-- Content API whose responses all lack the query structure. -/
def noneC : String → ContentResponse := fun _ => ⟨none⟩

/-- Attempt-indexed subcategory responses: the first attempt lacks the
query structure, the retry succeeds with one member. -/
def c3Api : Nat → SubcatResponse := fun n =>
  if n = 0 then ⟨none⟩ else ⟨some ["Category:B"]⟩

/-- Attempt-indexed content responses: the first attempt lacks the query
structure, the retry succeeds with one page entry. -/
def c3CApi : Nat → ContentResponse := fun n =>
  if n = 0 then ⟨none⟩ else ⟨some [("1", ⟨3, 5⟩)]⟩

/-- Content API returning two page ids with counters (3, 5) and (1, 2). -/
def c6C : String → ContentResponse := fun _ => ⟨some [("1", ⟨3, 5⟩), ("2", ⟨1, 2⟩)]⟩

/-! ## Helper lemmas -/

theorem takeWhile_append_stop (p : Char → Bool) (u w : List Char) (x : Char) (hx : p x = false) :
    List.takeWhile p (u ++ x :: w) = List.takeWhile p u := by
  induction u with
  | nil => simp [List.takeWhile, hx]
  | cons c cs ih =>
      simp only [List.cons_append, List.takeWhile]
      cases h : p c <;> simp [h, ih]

theorem lastSeg_append (a b : String) : lastSeg (a ++ "/" ++ b) = lastSeg b := by
  unfold lastSeg
  have h : (a ++ "/" ++ b).data = a.data ++ '/' :: b.data := by
    simp [String.data_append]
  rw [h]
  have h2 : (a.data ++ '/' :: b.data).reverse = b.data.reverse ++ '/' :: a.data.reverse := by
    simp
  rw [h2, takeWhile_append_stop _ _ _ _ (by decide)]

theorem recur_step_cached (gapi : String → SubcatResponse) (capi : String → ContentResponse)
    (s : CrawlState) (al : String) (rest : List String)
    (hp : s.pending = al :: rest) (hc : lastSeg al ∈ s.cache) :
    recur_step gapi capi s =
      .ok { s with pending := rest, subcatCalls := s.subcatCalls + 1 } := by
  unfold recur_step
  rw [hp]
  simp [hc]

theorem contents_foldl (pages : List (String × CategoryInfo)) :
    ∀ a b : Nat, pages.foldl (fun acc p => (acc.1 + p.2.files, acc.2 + p.2.pages)) (a, b) =
      (a + (pages.map (fun p => p.2.files)).sum, b + (pages.map (fun p => p.2.pages)).sum) := by
  induction pages with
  | nil => simp
  | cons p ps ih =>
      intro a b
      simp only [List.foldl_cons, List.map_cons, List.sum_cons, ih]
      rw [Nat.add_assoc, Nat.add_assoc]

theorem get_license_contents_eq (capi : String → ContentResponse) (license : String)
    (pages : List (String × CategoryInfo))
    (h : (capi license).queryPages = some pages) :
    get_license_contents capi license =
      some ⟨(pages.map (fun p => p.2.files)).sum, (pages.map (fun p => p.2.pages)).sum⟩ := by
  unfold get_license_contents
  rw [h]
  dsimp only
  rw [contents_foldl pages 0 0]
  simp

theorem recur_step_record (gapi : String → SubcatResponse) (capi : String → ContentResponse)
    (s : CrawlState) (al : String) (rest mems : List String)
    (pages : List (String × CategoryInfo))
    (hp : s.pending = al :: rest) (hc : lastSeg al ∉ s.cache)
    (hg : (gapi (lastSeg al)).queryMembers = some mems)
    (hcp : (capi (lastSeg al)).queryPages = some pages) :
    recur_step gapi capi s = .ok
      { pending := (mems.map (fun t => al ++ "/" ++ processTitle t)) ++ rest
        cache := lastSeg al :: s.cache
        report := s.report ++
          [(al, (pages.map (fun p => p.2.files)).sum, (pages.map (fun p => p.2.pages)).sum)]
        subcatCalls := s.subcatCalls + 1
        contentCalls := s.contentCalls + 1 } := by
  unfold recur_step
  rw [hp]
  simp only [hc, if_false]
  unfold record_license_data
  rw [get_license_contents_eq capi _ pages hcp]
  unfold get_subcategories
  rw [hg]
  simp [List.map_map, Function.comp]

theorem unvisited_decrease (U : Finset String) (s s2 : CrawlState) (cur : String)
    (hU : cur ∈ U) (hc : cur ∉ s.cache) (hcache : s2.cache = cur :: s.cache) :
    unvisited U s2 + 1 ≤ unvisited U s := by
  unfold unvisited
  rw [hcache]
  have hsub : U.filter (fun c => c ∉ cur :: s.cache) ⊆ U.filter (fun c => c ∉ s.cache) := by
    intro x hx
    simp only [Finset.mem_filter, List.mem_cons, not_or] at *
    exact ⟨hx.1, hx.2.2⟩
  have hss : U.filter (fun c => c ∉ cur :: s.cache) ⊂ U.filter (fun c => c ∉ s.cache) := by
    rw [Finset.ssubset_iff_of_subset hsub]
    refine ⟨cur, ?_, ?_⟩
    · simp only [Finset.mem_filter]
      exact ⟨hU, hc⟩
    · simp [Finset.mem_filter]
  exact Finset.card_lt_card hss

theorem recur_run_cons (gapi : String → SubcatResponse) (capi : String → ContentResponse)
    (n : Nat) (s s' : CrawlState) (al : String) (rest : List String)
    (hpend : s.pending = al :: rest) (hstep : recur_step gapi capi s = .ok s') :
    recur_run gapi capi (n + 1) s = recur_run gapi capi n s' := by
  simp only [recur_run, hpend, hstep]

theorem recur_run_total (gapi : String → SubcatResponse) (capi : String → ContentResponse)
    (U : Finset String) (B : Nat)
    (hB : ∀ c ∈ U, ((gapi c).queryMembers.getD []).length ≤ B)
    (hcl : ∀ c ∈ U, ∀ t ∈ (gapi c).queryMembers.getD [], lastSeg (processTitle t) ∈ U)
    (hg : ∀ c ∈ U, (gapi c).queryMembers ≠ none)
    (hcp : ∀ c ∈ U, (capi c).queryPages ≠ none) :
    ∀ k s, meas U B s ≤ k → (∀ a ∈ s.pending, lastSeg a ∈ U) →
      (reportCats s).Nodup → (∀ x ∈ reportCats s, x ∈ s.cache) →
      ∃ s', recur_run gapi capi k s = .ok s' ∧ s'.pending = [] ∧ (reportCats s').Nodup := by
  intro k
  induction k with
  | zero =>
      intro s hm hp hn hsub
      have hlen : s.pending.length = 0 := by
        unfold meas at hm
        omega
      exact ⟨s, rfl, List.length_eq_zero.mp hlen, hn⟩
  | succ n ih =>
      intro s hm hp hn hsub
      cases hpend : s.pending with
      | nil => exact ⟨s, by simp only [recur_run, hpend], hpend, hn⟩
      | cons al rest =>
          have hcur : lastSeg al ∈ U := hp al (by rw [hpend]; exact List.mem_cons_self _ _)
          by_cases hc : lastSeg al ∈ s.cache
          · -- already cached: worklist shrinks
            have hstep := recur_step_cached gapi capi s al rest hpend hc
            have hrun := recur_run_cons gapi capi n s _ al rest hpend hstep
            have hmeq : meas U B { s with pending := rest, subcatCalls := s.subcatCalls + 1 } + 1
                = meas U B s := by
              unfold meas unvisited
              rw [hpend]
              simp
              omega
            have hm1 : meas U B { s with pending := rest, subcatCalls := s.subcatCalls + 1 } ≤ n := by
              omega
            obtain ⟨s', h1, h2, h3⟩ := ih _ hm1
              (fun a ha => hp a (by rw [hpend]; exact List.mem_cons_of_mem _ ha)) hn hsub
            exact ⟨s', by rw [hrun]; exact h1, h2, h3⟩
          · -- new category: record, cache, descend
            obtain ⟨mems, hg'⟩ := Option.ne_none_iff_exists'.mp (hg _ hcur)
            obtain ⟨pages, hcp'⟩ := Option.ne_none_iff_exists'.mp (hcp _ hcur)
            have hstep := recur_step_record gapi capi s al rest mems pages hpend hc hg' hcp'
            have hrun := recur_run_cons gapi capi n s _ al rest hpend hstep
            have hmemB : mems.length ≤ B := by
              have := hB _ hcur
              rw [hg'] at this
              simpa using this
            have hdec : unvisited U
                { pending := (mems.map (fun t => al ++ "/" ++ processTitle t)) ++ rest
                  cache := lastSeg al :: s.cache
                  report := s.report ++
                    [(al, (pages.map (fun p => p.2.files)).sum, (pages.map (fun p => p.2.pages)).sum)]
                  subcatCalls := s.subcatCalls + 1
                  contentCalls := s.contentCalls + 1 } + 1 ≤ unvisited U s :=
              unvisited_decrease U s _ (lastSeg al) hcur hc rfl
            have hm2 : meas U B
                { pending := (mems.map (fun t => al ++ "/" ++ processTitle t)) ++ rest
                  cache := lastSeg al :: s.cache
                  report := s.report ++
                    [(al, (pages.map (fun p => p.2.files)).sum, (pages.map (fun p => p.2.pages)).sum)]
                  subcatCalls := s.subcatCalls + 1
                  contentCalls := s.contentCalls + 1 } ≤ n := by
              unfold meas at hm ⊢
              rw [hpend] at hm
              simp only [List.length_cons, List.length_append, List.length_map] at *
              have hmul := Nat.mul_le_mul_left (B + 1) hdec
              rw [Nat.mul_succ] at hmul
              omega
            have hpend2 : ∀ a ∈ (mems.map (fun t => al ++ "/" ++ processTitle t)) ++ rest,
                lastSeg a ∈ U := by
              intro a ha
              rcases List.mem_append.mp ha with hl | hr
              · obtain ⟨t, ht, rfl⟩ := List.mem_map.mp hl
                rw [lastSeg_append]
                have := hcl _ hcur
                rw [hg'] at this
                exact this t (by simpa using ht)
              · exact hp a (by rw [hpend]; exact List.mem_cons_of_mem _ hr)
            have hcats2 : reportCats
                { pending := (mems.map (fun t => al ++ "/" ++ processTitle t)) ++ rest
                  cache := lastSeg al :: s.cache
                  report := s.report ++
                    [(al, (pages.map (fun p => p.2.files)).sum, (pages.map (fun p => p.2.pages)).sum)]
                  subcatCalls := s.subcatCalls + 1
                  contentCalls := s.contentCalls + 1 } = reportCats s ++ [lastSeg al] := by
              unfold reportCats
              simp
            have hn2 : (reportCats s ++ [lastSeg al]).Nodup := by
              rw [List.nodup_append]
              refine ⟨hn, List.nodup_singleton _, ?_⟩
              intro x hx hx1
              rw [List.mem_singleton] at hx1
              subst hx1
              exact hc (hsub _ hx)
            have hsub2 : ∀ x ∈ reportCats s ++ [lastSeg al], x ∈ lastSeg al :: s.cache := by
              intro x hx
              rcases List.mem_append.mp hx with hl | hr
              · exact List.mem_cons_of_mem _ (hsub x hl)
              · rw [List.mem_singleton] at hr
                subst hr
                exact List.mem_cons_self _ _
            obtain ⟨s', h1, h2, h3⟩ := ih _ hm2 hpend2 (by rw [hcats2]; exact hn2)
              (by rw [hcats2]; exact hsub2)
            exact ⟨s', by rw [hrun]; exact h1, h2, h3⟩

theorem strip_noop (l : List Char) (h : containsCat l = false) : stripCategory l = l := by
  induction l using stripCategory.induct with
  | case1 rest ih => simp [containsCat] at h
  | case2 c rest hne ih =>
      have hc : containsCat (c :: rest) = containsCat rest := by
        rw [containsCat.eq_def]
        split
        · rename_i heq
          injection heq with h1 h2
          exact (hne _ h1 h2).elim
        · rename_i heq
          injection heq with h1 h2
          rw [h2]
        · simp at *
      rw [hc] at h
      rw [stripCategory.eq_def]
      split
      · rename_i heq
        injection heq with h1 h2
        exact (hne _ h1 h2).elim
      · rename_i c' rest' heq
        injection heq with h1 h2
        subst h1
        subst h2
        rw [ih h]
      · rename_i heq
        cases heq
  | case3 => rfl

theorem escapeAmp_eq_flatMap (l : List Char) : escapeAmp l = l.flatMap specAmpEscape := by
  induction l with
  | nil => rfl
  | cons c cs ih =>
      by_cases h : c = '&' <;> simp [escapeAmp, specAmpEscape, h, ih]


/-! ## Claim theorems -/

/-- C1, counterexample.  The claim says a visit of an already-recorded
category performs zero network calls.  In the code get_subcategories is
called before the LICENSE_CACHE test, so visiting the cached category A
issues one subcategory network call: the subcategory call counter moves
from 0 to 1, not 0. -/
theorem c1_visited_calls_network :
    recur_step oneG oneC ⟨["A"], ["A"], [], 0, 0⟩ = .ok ⟨[], ["A"], [], 1, 0⟩ ∧
    (1 : Nat) ≠ 0 :=
  ⟨rfl, by decide⟩

/-- C1, amended.  Visiting a category already in the Visited Set leaves
the report, the cache and the content-call counter unchanged, performs
no descent (the worklist only loses the visited alias) and re-records
nothing, but does perform exactly one subcategory-listing network call,
whose result is discarded. -/
theorem c1_amended_visited_step (gapi : String → SubcatResponse)
    (capi : String → ContentResponse) (s : CrawlState) (al : String) (rest : List String)
    (hp : s.pending = al :: rest) (hc : lastSeg al ∈ s.cache) :
    ∃ s', recur_step gapi capi s = .ok s' ∧ s'.report = s.report ∧ s'.cache = s.cache ∧
      s'.contentCalls = s.contentCalls ∧ s'.subcatCalls = s.subcatCalls + 1 ∧
      s'.pending = rest :=
  ⟨_, recur_step_cached gapi capi s al rest hp hc, rfl, rfl, rfl, rfl, rfl⟩

/-- Witness for c1_amended_visited_step at the cached category A. -/
theorem c1_amended_visited_step_witness :
    (⟨["A"], ["A"], [], 0, 0⟩ : CrawlState).pending = "A" :: [] ∧
    lastSeg "A" ∈ (⟨["A"], ["A"], [], 0, 0⟩ : CrawlState).cache ∧
    ∃ s', recur_step oneG oneC ⟨["A"], ["A"], [], 0, 0⟩ = .ok s' ∧
      s'.report = (⟨["A"], ["A"], [], 0, 0⟩ : CrawlState).report ∧
      s'.cache = (⟨["A"], ["A"], [], 0, 0⟩ : CrawlState).cache ∧
      s'.contentCalls = (⟨["A"], ["A"], [], 0, 0⟩ : CrawlState).contentCalls ∧
      s'.subcatCalls = (⟨["A"], ["A"], [], 0, 0⟩ : CrawlState).subcatCalls + 1 ∧
      s'.pending = [] :=
  ⟨rfl, by decide, c1_amended_visited_step oneG oneC _ "A" [] rfl (by decide)⟩

/-- C2, code behaviour at the failing input.  When the content response
for A lacks the query structure, get_license_contents returns None; but
the run does not skip A and continue: record_license_data subscripts the
None and the resulting TypeError aborts the whole run (here from the
root R whose children are A and C - the sibling C is never visited). -/
theorem c2_empty_result_aborts_run :
    get_license_contents c2C "A" = none ∧
    recur_run c2G c2C 10 (initState "R") =
      .error "TypeError: NoneType object is not subscriptable" :=
  ⟨rfl, rfl⟩

/-- C3, code behaviour at the failing input.  With eb=True and a first
response lacking the query structure, both query functions route through
expo_backoff (the exponent advances 0 to 1) and re-invoke themselves,
but the retried call result (some value, here computed from the second
response) is discarded: the caller receives None. -/
theorem c3_backoff_retry_discards_result :
    (get_subcategories_eb c3Api 500 0 "X" = (none, 1) ∧
      get_subcategories (fun _ => c3Api 1) "X" = some ["B"]) ∧
    (get_license_contents_eb c3CApi 500 0 "X" = (none, 1) ∧
      get_license_contents (fun _ => c3CApi 1) "X" = some ⟨3, 5⟩) := by
  refine ⟨⟨?_, rfl⟩, ?_, rfl⟩
  · simp [get_subcategories_eb, c3Api, expo_backoff, jitter, CALLBACK_INDEX, MAX_WAIT]
    norm_num
  · simp [get_license_contents_eb, c3CApi, expo_backoff, jitter, CALLBACK_INDEX, MAX_WAIT]
    norm_num

/-- C6.  Whenever the content response has the query structure,
get_license_contents returns the sum of the files counters and the sum
of the pages counters over all page-id entries; in particular two
entries with (3, 5) and (1, 2) yield (4, 7). -/
theorem c6_sums_all_page_entries :
    (∀ (capi : String → ContentResponse) (license : String)
        (pages : List (String × CategoryInfo)),
        (capi license).queryPages = some pages →
        get_license_contents capi license =
          some ⟨(pages.map (fun p => p.2.files)).sum, (pages.map (fun p => p.2.pages)).sum⟩) ∧
    get_license_contents c6C "X" = some ⟨4, 7⟩ :=
  ⟨get_license_contents_eq, rfl⟩

/-- Witness for c6_sums_all_page_entries at the two-entry response. -/
theorem c6_sums_all_page_entries_witness :
    (c6C "X").queryPages = some [("1", ⟨3, 5⟩), ("2", ⟨1, 2⟩)] ∧
    get_license_contents c6C "X" =
      some ⟨(([("1", ⟨3, 5⟩), ("2", ⟨1, 2⟩)] :
              List (String × CategoryInfo)).map (fun p => p.2.files)).sum,
            (([("1", ⟨3, 5⟩), ("2", ⟨1, 2⟩)] :
              List (String × CategoryInfo)).map (fun p => p.2.pages)).sum⟩ :=
  ⟨rfl, c6_sums_all_page_entries.1 c6C "X" _ rfl⟩

/-- C9, code behaviour at the failing draw.  The jitter is
randint(1, 1000) / 1000; at the admissible draw r = 1000 it equals
1.000, strictly above the documented bound 0.999 (the docstring of
expo_backoff promises a value between 0.001 and 0.999 inclusive); the
wait at exponent 0 is then 2 seconds. -/
theorem c9_jitter_reaches_one :
    1 ≤ 1000 ∧ 1000 ≤ 1000 ∧ jitter 1000 = 1 ∧ (999 : ℚ) / 1000 < jitter 1000 ∧
    (expo_backoff 1000 0).1 = 2 := by
  refine ⟨by norm_num, by norm_num, ?_, ?_, ?_⟩
  · unfold jitter; norm_num
  · unfold jitter; norm_num
  · unfold expo_backoff jitter CALLBACK_INDEX MAX_WAIT
    norm_num

/-- C10.  Each non-terminating exception branch of the two query
functions - the diagnostic branch taken when the query structure is
absent, and the eb=True backoff-retry branch - returns None rather than
a list or dict; and a caller that then subscripts (record_license_data,
reached from the traversal step) or iterates (the subcategory loop of
the traversal step) the result raises a TypeError. -/
theorem c10_none_then_caller_crashes :
    (∀ (api : String → SubcatResponse) (license : String),
        (api license).queryMembers = none → get_subcategories api license = none) ∧
    (∀ (api : String → ContentResponse) (license : String),
        (api license).queryPages = none → get_license_contents api license = none) ∧
    (∀ (api : Nat → SubcatResponse) (r e : Nat) (license : String),
        (api 0).queryMembers = none → (get_subcategories_eb api r e license).1 = none) ∧
    (∀ (api : Nat → ContentResponse) (r e : Nat) (license : String),
        (api 0).queryPages = none → (get_license_contents_eb api r e license).1 = none) ∧
    (∀ (gapi : String → SubcatResponse) (capi : String → ContentResponse)
        (s : CrawlState) (al : String) (rest : List String),
        s.pending = al :: rest → lastSeg al ∉ s.cache →
        (capi (lastSeg al)).queryPages = none →
        recur_step gapi capi s = .error "TypeError: NoneType object is not subscriptable") ∧
    (∀ (gapi : String → SubcatResponse) (capi : String → ContentResponse)
        (s : CrawlState) (al : String) (rest : List String)
        (pages : List (String × CategoryInfo)),
        s.pending = al :: rest → lastSeg al ∉ s.cache →
        (gapi (lastSeg al)).queryMembers = none →
        (capi (lastSeg al)).queryPages = some pages →
        recur_step gapi capi s = .error "TypeError: NoneType object is not iterable") := by
  refine ⟨?_, ?_, ?_, ?_, ?_, ?_⟩
  · intro api license h
    unfold get_subcategories
    rw [h]
  · intro api license h
    unfold get_license_contents
    rw [h]
  · intro api r e license h
    unfold get_subcategories_eb
    rw [h]
  · intro api r e license h
    unfold get_license_contents_eb
    rw [h]
  · intro gapi capi s al rest hp hc hq
    unfold recur_step
    rw [hp]
    simp only [hc, if_false]
    unfold record_license_data get_license_contents
    rw [hq]
  · intro gapi capi s al rest pages hp hc hg hq
    unfold recur_step
    rw [hp]
    simp only [hc, if_false]
    rw [record_license_data, get_license_contents_eq capi _ pages hq]
    unfold get_subcategories
    rw [hg]

/-- Witness for c10_none_then_caller_crashes: the none returns and the
two caller crashes at concrete inputs. -/
theorem c10_none_then_caller_crashes_witness :
    ((noneG "X").queryMembers = none ∧ get_subcategories noneG "X" = none) ∧
    ((noneC "X").queryPages = none ∧ get_license_contents noneC "X" = none) ∧
    ((c3Api 0).queryMembers = none ∧ (get_subcategories_eb c3Api 500 0 "X").1 = none) ∧
    ((c3CApi 0).queryPages = none ∧ (get_license_contents_eb c3CApi 500 0 "X").1 = none) ∧
    (recur_step oneG noneC ⟨["A"], [], [], 0, 0⟩ =
      .error "TypeError: NoneType object is not subscriptable") ∧
    (recur_step noneG oneC ⟨["A"], [], [], 0, 0⟩ =
      .error "TypeError: NoneType object is not iterable") := by
  refine ⟨⟨rfl, ?_⟩, ⟨rfl, ?_⟩, ⟨rfl, ?_⟩, ⟨rfl, ?_⟩, ?_, ?_⟩
  · exact c10_none_then_caller_crashes.1 noneG "X" rfl
  · exact c10_none_then_caller_crashes.2.1 noneC "X" rfl
  · exact c10_none_then_caller_crashes.2.2.1 c3Api 500 0 "X" rfl
  · exact c10_none_then_caller_crashes.2.2.2.1 c3CApi 500 0 "X" rfl
  · exact c10_none_then_caller_crashes.2.2.2.2.1 oneG noneC
      ⟨["A"], [], [], 0, 0⟩ "A" [] rfl (by decide) rfl
  · exact c10_none_then_caller_crashes.2.2.2.2.2 noneG oneC
      ⟨["A"], [], [], 0, 0⟩ "A" [] [] rfl (by decide) rfl rfl

/-- C4.  For any finite category graph (a universe U closed under the
processed subcategory listing, with well-formed responses and fan-out at
most B) the traversal terminates - some fuel takes the run from the root
to an empty worklist - and each category name appears in the report at
most once; on the concrete two-node cycle A to B to A the run terminates
with A and B each reported exactly once. -/
theorem c4_traversal_terminates_each_once :
    (∀ (gapi : String → SubcatResponse) (capi : String → ContentResponse)
        (U : Finset String) (B : Nat) (root : String),
        (∀ c ∈ U, ((gapi c).queryMembers.getD []).length ≤ B) →
        (∀ c ∈ U, ∀ t ∈ (gapi c).queryMembers.getD [], lastSeg (processTitle t) ∈ U) →
        (∀ c ∈ U, (gapi c).queryMembers ≠ none) →
        (∀ c ∈ U, (capi c).queryPages ≠ none) →
        lastSeg root ∈ U →
        ∃ n s', recur_run gapi capi n (initState root) = .ok s' ∧ s'.pending = [] ∧
          ∀ c : String, (reportCats s').count c ≤ 1) ∧
    (∃ s', recur_run cycleG cycleC 5 (initState "A") = .ok s' ∧ s'.pending = [] ∧
      reportCats s' = ["A", "B"] ∧
      (reportCats s').count "A" = 1 ∧ (reportCats s').count "B" = 1) := by
  constructor
  · intro gapi capi U B root hB hcl hg hcp hroot
    obtain ⟨s', h1, h2, h3⟩ := recur_run_total gapi capi U B hB hcl hg hcp
      (meas U B (initState root)) (initState root) le_rfl
      (by
        intro a ha
        simp only [initState, List.mem_singleton] at ha
        rw [ha]
        exact hroot)
      (by simp [reportCats, initState])
      (by simp [reportCats, initState])
    exact ⟨_, s', h1, h2, fun c => List.nodup_iff_count_le_one.mp h3 c⟩
  · exact ⟨⟨[], ["B", "A"], [("A", 1, 1), ("A/B", 1, 1)], 3, 2⟩, rfl, rfl,
      by decide, by decide, by decide⟩

/-- Witness for c4_traversal_terminates_each_once on the two-node cycle:
all hypotheses hold for the universe containing A and B with fan-out
bound 1, and the traversal from A terminates with every category
reported at most once. -/
theorem c4_traversal_terminates_each_once_witness :
    ((∀ c ∈ ({"A", "B"} : Finset String), ((cycleG c).queryMembers.getD []).length ≤ 1) ∧
     (∀ c ∈ ({"A", "B"} : Finset String), ∀ t ∈ (cycleG c).queryMembers.getD [],
        lastSeg (processTitle t) ∈ ({"A", "B"} : Finset String)) ∧
     (∀ c ∈ ({"A", "B"} : Finset String), (cycleG c).queryMembers ≠ none) ∧
     (∀ c ∈ ({"A", "B"} : Finset String), (cycleC c).queryPages ≠ none) ∧
     lastSeg "A" ∈ ({"A", "B"} : Finset String)) ∧
    (∃ n s', recur_run cycleG cycleC n (initState "A") = .ok s' ∧ s'.pending = [] ∧
      ∀ c : String, (reportCats s').count c ≤ 1) :=
  ⟨⟨by decide, by decide, by decide, by decide, by decide⟩,
   c4_traversal_terminates_each_once.1 cycleG cycleC {"A", "B"} 1 "A"
     (by decide) (by decide) (by decide) (by decide) (by decide)⟩

/-- C5.  The report is append-only - every successful step extends the
row list at its end, and a new row is appended before the children of
its category are queued (record before descend), so rows appear in
first-visit pre-order.  On the concrete scenario with root A (2, 4) and
single child B (0, 1) the finished report file is exactly the header
followed by "A,2,4" and then "A/B,0,1". -/
theorem c5_preorder_report :
    (∀ (gapi : String → SubcatResponse) (capi : String → ContentResponse)
        (s s' : CrawlState),
        recur_step gapi capi s = .ok s' → ∃ t, s'.report = s.report ++ t) ∧
    (∃ s', recur_run c5G c5C 4 (initState "A") = .ok s' ∧ s'.pending = [] ∧
      reportFile s' = [header, "A,2,4", "A/B,0,1"]) := by
  constructor
  · intro gapi capi s s' hstep
    unfold recur_step at hstep
    split at hstep
    · cases hstep
      exact ⟨[], by simp⟩
    · dsimp only at hstep
      split at hstep
      · cases hstep
        exact ⟨[], by simp⟩
      · split at hstep
        · cases hstep
        · split at hstep
          · cases hstep
          · cases hstep
            exact ⟨_, rfl⟩
  · exact ⟨⟨[], ["B", "A"], [("A", 2, 4), ("A/B", 0, 1)], 2, 2⟩, rfl, rfl, rfl⟩

/-- Witness for the append-only part of c5_preorder_report at the first
step of the concrete scenario. -/
theorem c5_preorder_report_witness :
    ∃ t, (⟨["A/B"], ["A"], [("A", 2, 4)], 1, 1⟩ : CrawlState).report =
      (initState "A").report ++ t :=
  c5_preorder_report.1 c5G c5C (initState "A") ⟨["A/B"], ["A"], [("A", 2, 4)], 1, 1⟩ rfl

/-- C7.  A title of the form "Category:" followed by a remainder free of
further occurrences of the marker is processed to the remainder with
every ampersand replaced by the escape "%26" (stated through the
character-wise spec map specAmpEscape); in particular the raw title
"Category:Things & Stuff" yields "Things %26 Stuff". -/
theorem c7_strip_and_escape :
    (∀ rest : List Char, containsCat rest = false →
        processTitle ⟨catColon ++ rest⟩ = ⟨rest.flatMap specAmpEscape⟩) ∧
    processTitle "Category:Things & Stuff" = "Things %26 Stuff" := by
  constructor
  · intro rest h
    unfold processTitle
    have h1 : stripCategory (catColon ++ rest) = stripCategory rest := rfl
    have h2 : (String.mk (catColon ++ rest)).data = catColon ++ rest := rfl
    rw [h2, h1, strip_noop rest h, escapeAmp_eq_flatMap]
  · decide

/-- Witness for c7_strip_and_escape at the remainder of the concrete
title. -/
theorem c7_strip_and_escape_witness :
    containsCat "Things & Stuff".data = false ∧
    processTitle ⟨catColon ++ "Things & Stuff".data⟩ =
      ⟨"Things & Stuff".data.flatMap specAmpEscape⟩ :=
  ⟨by decide, c7_strip_and_escape.1 "Things & Stuff".data (by decide)⟩

/-- C8.  For every admissible draw, the sleep of expo_backoff is at most
MAX_WAIT; the exponent is incremented exactly when the unclamped delay
jitter + 2 ^ expo is below MAX_WAIT; the minimum possible delay never
decreases from one call to the next; and once the unclamped delay has
reached the ceiling the exponent stays put. -/
theorem c8_backoff_spec (r e : Nat) (_h1 : 1 ≤ r) (_h2 : r ≤ 1000) :
    (expo_backoff r e).1 ≤ MAX_WAIT ∧
    ((expo_backoff r e).2 = e + 1 ↔ jitter r + CALLBACK_INDEX ^ e < MAX_WAIT) ∧
    minDelay e ≤ minDelay (expo_backoff r e).2 ∧
    (MAX_WAIT ≤ jitter r + CALLBACK_INDEX ^ e → (expo_backoff r e).2 = e) := by
  have hle : e ≤ (expo_backoff r e).2 := by
    unfold expo_backoff
    dsimp only
    split
    · exact Nat.le_succ e
    · exact le_rfl
  refine ⟨?_, ?_, ?_, ?_⟩
  · exact min_le_right _ _
  · unfold expo_backoff
    dsimp only
    split
    · rename_i hlt
      simp [hlt]
    · rename_i hlt
      simp only [hlt, iff_false]
      omega
  · unfold minDelay
    have hpow := pow_le_pow_right₀ (by norm_num [CALLBACK_INDEX] : (1 : ℚ) ≤ CALLBACK_INDEX) hle
    linarith
  · intro hge
    unfold expo_backoff
    dsimp only
    rw [if_neg (not_lt.mpr hge)]

/-- Witness for c8_backoff_spec at the draw 1 and exponent 0. -/
theorem c8_backoff_spec_witness :
    (1 ≤ 1 ∧ 1 ≤ 1000) ∧
    ((expo_backoff 1 0).1 ≤ MAX_WAIT ∧
     ((expo_backoff 1 0).2 = 0 + 1 ↔ jitter 1 + CALLBACK_INDEX ^ 0 < MAX_WAIT) ∧
     minDelay 0 ≤ minDelay (expo_backoff 1 0).2 ∧
     (MAX_WAIT ≤ jitter 1 + CALLBACK_INDEX ^ 0 → (expo_backoff 1 0).2 = 0)) :=
  ⟨⟨le_refl 1, by norm_num⟩, c8_backoff_spec 1 0 (le_refl 1) (by norm_num)⟩

end WikiCommons
